import Mathlib

/-!
Shallow embedding of the Game of Life engine from `src/lib.rs`
(`Universe`, `Cell` and their operations), together with theorems that
settle the specification claims about it.

Machine integers: `row`, `col`, `width`, `height` are `u32` in the source.
They are modelled as `Nat`; wherever the source's `u32` arithmetic can
actually wrap (the subtractions `row - 2`, `row - 1`, `col - 1` in
`create_pulsar_gerator`, the additions `col + 1`, `col + 2` in
`create_glider` and `create_pulsar_gerator`, and the index computation
`row * width + col`), the wrap is made explicit with `% 2^32` via `u32add`
/ `u32sub` / `u32of`.  Subtractions that sit behind a guard making wrap
impossible for in-range `u32` values (`height - 1` under `0 < height`,
`row - 1` under `row ≠ 0`) are written as plain `Nat` subtraction.
Rust's panicking index `cells[idx]` is modelled by `List.getD _ _ Cell.Dead`
/ `List.set`; the in-bounds theorem for `get_index` shows the accesses the
claims are about are inside the buffer.
-/

/-- 2^32, the modulus of `u32` arithmetic. -/
def U32 : Nat := 4294967296

/-- Wrapping `u32` addition (`a + b` in release-mode Rust). -/
def u32add (a b : Nat) : Nat := (a + b) % U32

/-- Wrapping `u32` subtraction (`a - b` in release-mode Rust), for `u32`
values `a b < 2^32`. -/
def u32sub (a b : Nat) : Nat := (a % U32 + U32 - b % U32) % U32

/-- Truncation to a `u32` value. -/
def u32of (a : Nat) : Nat := a % U32

/-- `Cell` from `src/lib.rs`: `Dead = 0`, `Alive = 1`. -/
inductive Cell where
  | Dead : Cell
  | Alive : Cell
deriving DecidableEq, Repr

/-- `Cell::toggle` from `src/lib.rs`. -/
def Cell.toggle : Cell → Cell
  | .Dead => .Alive
  | .Alive => .Dead

/-- The numeric value of a cell, `cell as u8` in the source. -/
def Cell.toNat : Cell → Nat
  | .Dead => 0
  | .Alive => 1

/-- `Universe` from `src/lib.rs`: a `width × height` grid stored row-major
in `cells`. -/
structure Universe where
  width : Nat
  height : Nat
  cells : List Cell
deriving DecidableEq, Repr

namespace Universe

/-- `Universe::normalize_coordinate`.  The source's `row < 0` / `col < 0`
branches are dead code under unsigned coordinates and are omitted; only
the `row > height - 1` / `col > width - 1` branches (which reset the
coordinate to `0`) are reachable.  `height - 1` / `width - 1` cannot wrap
for the positive dimensions the data model guarantees, so plain `Nat`
subtraction is used. -/
def normalize_coordinate (u : Universe) (row col : Nat) : Nat × Nat :=
  let row := if row > u.height - 1 then 0 else row
  let col := if col > u.width - 1 then 0 else col
  (row, col)

/-- `Universe::get_index`: normalize, then `row * width + col` in wrapping
`u32` arithmetic (the result is cast to `usize`, 32-bit on wasm). -/
def get_index (u : Universe) (row col : Nat) : Nat :=
  let p := u.normalize_coordinate row col
  u32of (p.1 * u.width + p.2)

/-- `Universe::live_neighbor_count`: sum of the eight neighbours' values,
with explicit wrap-around at the boundary.  `row - 1` / `column - 1` sit
behind `row = 0` / `column = 0` guards and `height - 1` / `width - 1`
behind positive dimensions, so no `u32` wrap is possible there. -/
def live_neighbor_count (u : Universe) (row column : Nat) : Nat :=
  let north := if row = 0 then u.height - 1 else row - 1
  let south := if row = u.height - 1 then 0 else row + 1
  let west := if column = 0 then u.width - 1 else column - 1
  let east := if column = u.width - 1 then 0 else column + 1
  (u.cells.getD (u.get_index north west) .Dead).toNat
    + (u.cells.getD (u.get_index north column) .Dead).toNat
    + (u.cells.getD (u.get_index north east) .Dead).toNat
    + (u.cells.getD (u.get_index row west) .Dead).toNat
    + (u.cells.getD (u.get_index row east) .Dead).toNat
    + (u.cells.getD (u.get_index south west) .Dead).toNat
    + (u.cells.getD (u.get_index south column) .Dead).toNat
    + (u.cells.getD (u.get_index south east) .Dead).toNat

/-- The per-cell transition of `Universe::tick`'s `match`, in the source's
order of evaluation. -/
def next_cell (cell : Cell) (live_neighbors : Nat) : Cell :=
  if cell = .Alive ∧ live_neighbors < 2 then .Dead
  else if cell = .Alive ∧ (live_neighbors = 2 ∨ live_neighbors = 3) then .Alive
  else if cell = .Alive ∧ live_neighbors > 3 then .Dead
  else if cell = .Dead ∧ live_neighbors = 3 then .Alive
  else cell

/-- `Universe::tick`: clone the buffer, then for `row in range..height`,
`col in range..width` write the transition of the cell (read from the old
buffer `u.cells`) into the clone, and install the clone. -/
def tick (u : Universe) (range : Nat) : Universe :=
  let next :=
    (List.range' range (u.height - range)).foldl (fun next row =>
      (List.range' range (u.width - range)).foldl (fun next col =>
        let idx := u.get_index row col
        let cell := u.cells.getD idx .Dead
        let live_neighbors := u.live_neighbor_count row col
        next.set idx (next_cell cell live_neighbors)) next) u.cells
  { u with cells := next }

/-- `Universe::restart`: re-sample every cell.  The external random source
(`js_sys::Math::random() < 0.5`) is injected as `rng`: `rng i` is the
outcome of the comparison for the `i`-th generated cell. -/
def restart (rng : Nat → Bool) (u : Universe) : Universe :=
  { u with
    cells := (List.range (u32of (u.width * u.height))).map
      (fun i => if rng i then Cell.Alive else Cell.Dead) }

/-- `Universe::new`: fixed 128 × 128 grid, each cell sampled from the
injected random source. -/
def new (rng : Nat → Bool) : Universe :=
  let width := 128
  let height := 128
  { width := width, height := height,
    cells := (List.range (width * height)).map
      (fun i => if rng i then Cell.Alive else Cell.Dead) }

/-- `Universe::toggle_cell`. -/
def toggle_cell (u : Universe) (row column : Nat) : Universe :=
  let idx := u.get_index row column
  { u with cells := u.cells.set idx ((u.cells.getD idx .Dead).toggle) }

/-- `Universe::toggle_live_cell`: invert every cell in place (reads go to
the buffer being mutated, matching the source's in-place loop). -/
def toggle_live_cell (u : Universe) : Universe :=
  let cells :=
    (List.range u.height).foldl (fun cells row =>
      (List.range u.width).foldl (fun cells col =>
        let idx := u.get_index row col
        let cell := cells.getD idx .Dead
        cells.set idx (if cell = .Dead then Cell.Alive else Cell.Dead)) cells) u.cells
  { u with cells := cells }

/-- `Universe::create_glider`: sets `(row, col)`, `(row, col+1)`,
`(row, col+2)` Alive, additions in wrapping `u32` arithmetic. -/
def create_glider (u : Universe) (row col : Nat) : Universe :=
  let idx1 := u.get_index row col
  let idx2 := u.get_index row (u32add col 1)
  let idx3 := u.get_index row (u32add col 2)
  { u with cells := ((u.cells.set idx1 .Alive).set idx2 .Alive).set idx3 .Alive }

/-- `Universe::create_pulsar_gerator`: center Dead, then the ten offset
cells Alive, in the source's order; offset arithmetic is wrapping `u32`
arithmetic (`row - 2` with `row < 2` wraps past zero). -/
def create_pulsar_gerator (u : Universe) (row col : Nat) : Universe :=
  let cells := u.cells.set (u.get_index row col) .Dead
  let cells := cells.set (u.get_index (u32sub row 2) col) .Alive
  let cells := cells.set (u.get_index (u32add row 2) col) .Alive
  let cells := cells.set (u.get_index (u32add row 1) col) .Alive
  let cells := cells.set (u.get_index (u32sub row 1) col) .Alive
  let cells := cells.set (u.get_index row (u32add col 1)) .Alive
  let cells := cells.set (u.get_index row (u32sub col 1)) .Alive
  let cells := cells.set (u.get_index (u32add row 1) (u32add col 1)) .Alive
  let cells := cells.set (u.get_index (u32add row 1) (u32sub col 1)) .Alive
  let cells := cells.set (u.get_index (u32sub row 1) (u32add col 1)) .Alive
  let cells := cells.set (u.get_index (u32sub row 1) (u32sub col 1)) .Alive
  { u with cells := cells }

/-- The cell stored at grid position `(row, col)` (row-major). -/
def cellAt (u : Universe) (row col : Nat) : Cell :=
  u.cells.getD (row * u.width + col) .Dead

/-- The number of Alive cells of the grid. -/
def aliveCells (u : Universe) : Nat :=
  ∑ r ∈ Finset.range u.height, ∑ c ∈ Finset.range u.width, (u.cellAt r c).toNat

end Universe

/-- The transition rule exactly as the specification words it: an Alive
cell with fewer than 2 live neighbors becomes Dead; an Alive cell with 2
or 3 live neighbors stays Alive; an Alive cell with more than 3 live
neighbors becomes Dead; a Dead cell with exactly 3 live neighbors becomes
Alive; every other cell is unchanged. -/
def lifeRule (c : Cell) (n : Nat) : Cell :=
  match c with
  | .Alive => if n < 2 then .Dead else if n ≤ 3 then .Alive else .Dead
  | .Dead => if n = 3 then .Alive else .Dead

/-- A 3 × 3 universe whose only Alive cell is (0,0). -/
def only00Alive3 : Universe :=
  ⟨3, 3, [.Alive, .Dead, .Dead, .Dead, .Dead, .Dead, .Dead, .Dead, .Dead]⟩

/-- A 5 × 5 universe with every cell Dead. -/
def allDead5 : Universe := ⟨5, 5, List.replicate 25 .Dead⟩

/-- A 3 × 3 universe with every cell Dead. -/
def allDead3 : Universe := ⟨3, 3, List.replicate 9 .Dead⟩

section Helpers

lemma u32of_eq_of_lt {a : Nat} (h : a < U32) : u32of a = a := Nat.mod_eq_of_lt h

lemma Cell.toNat_le_one (c : Cell) : c.toNat ≤ 1 := by cases c <;> simp [Cell.toNat]

lemma Cell.toggle_toggle (c : Cell) : c.toggle.toggle = c := by
  cases c <;> rfl

lemma getD_set_self {α : Type _} (l : List α) (i : Nat) (a d : α) (h : i < l.length) :
    (l.set i a).getD i d = a := by
  rw [List.getD_eq_getElem?_getD, List.getElem?_set_eq_of_lt a h]
  rfl

lemma getD_set_ne {α : Type _} (l : List α) {i j : Nat} (a d : α) (h : i ≠ j) :
    (l.set i a).getD j d = l.getD j d := by
  rw [List.getD_eq_getElem?_getD, List.getElem?_set_ne h, ← List.getD_eq_getElem?_getD]

lemma set_getD_self {α : Type _} (l : List α) (i : Nat) (d : α) (h : i < l.length) :
    l.set i (l.getD i d) = l := by
  apply List.ext_getElem?
  intro j
  rcases eq_or_ne i j with rfl | hij
  · rw [List.getElem?_set_eq_of_lt _ h, List.getD_eq_getElem?_getD,
      List.getElem?_eq_getElem h]
    rfl
  · exact List.getElem?_set_ne hij

/-- `normalize_coordinate` is the identity on in-range coordinates. -/
lemma normalize_coordinate_eq (u : Universe) {row col : Nat}
    (hr : row < u.height) (hc : col < u.width) :
    u.normalize_coordinate row col = (row, col) := by
  unfold Universe.normalize_coordinate
  have h1 : ¬ row > u.height - 1 := by omega
  have h2 : ¬ col > u.width - 1 := by omega
  simp [h1, h2]

lemma mul_add_lt {row col w h : Nat} (hr : row < h) (hc : col < w) :
    row * w + col < w * h := by
  have h1 : (row + 1) * w ≤ h * w := Nat.mul_le_mul_right w hr
  rw [Nat.add_mul, Nat.one_mul] at h1
  rw [Nat.mul_comm w h]
  omega

/-- On in-range coordinates `get_index` is plain row-major indexing. -/
lemma get_index_eq (u : Universe) {row col : Nat}
    (hr : row < u.height) (hc : col < u.width) (hwh : u.width * u.height < U32) :
    u.get_index row col = row * u.width + col := by
  unfold Universe.get_index
  rw [normalize_coordinate_eq u hr hc]
  exact u32of_eq_of_lt (lt_trans (mul_add_lt hr hc) hwh)

end Helpers

/-- C2: `get_index` does NOT wrap toroidally by modular arithmetic: on a
3 × 3 universe, `get_index 4 0` returns 0 (the out-of-range row is reset
to 0), while the modular formula `(row % height) * width + col % width`
gives 3. -/
theorem get_index_not_modular :
    allDead3.get_index 4 0 = 0 ∧
      (4 % allDead3.height) * allDead3.width + 0 % allDead3.width = 3 := by
  constructor <;> decide

/-- C3: for every row and column (in particular every 32-bit value,
however far out of range), `get_index` lands strictly inside
`[0, width * height)`, so the cell accesses of the public operations stay
inside the `cells` buffer. -/
theorem get_index_in_bounds (u : Universe) (row col : Nat)
    (hw : 0 < u.width) (hh : 0 < u.height) :
    u.get_index row col < u.width * u.height := by
  unfold Universe.get_index Universe.normalize_coordinate
  have hr : (if row > u.height - 1 then 0 else row) < u.height := by
    split <;> omega
  have hc : (if col > u.width - 1 then 0 else col) < u.width := by
    split <;> omega
  calc u32of ((if row > u.height - 1 then 0 else row) * u.width +
          (if col > u.width - 1 then 0 else col))
      ≤ (if row > u.height - 1 then 0 else row) * u.width +
          (if col > u.width - 1 then 0 else col) := Nat.mod_le _ _
    _ < u.width * u.height := mul_add_lt hr hc

theorem get_index_in_bounds_witness :
    0 < only00Alive3.width ∧ 0 < only00Alive3.height ∧
      only00Alive3.get_index 7 5 < only00Alive3.width * only00Alive3.height :=
  ⟨by decide, by decide,
    get_index_in_bounds only00Alive3 7 5 (by decide) (by decide)⟩

/-- C4: `create_pulsar_gerator` does NOT stamp the toroidally wrapped
offsets near the edge: on the all-Dead 5 × 5 universe,
`create_pulsar_gerator 0 2` computes `row - 2` by wrapping `u32`
subtraction (4294967294), which normalization resets to row 0, so the
toroidal target (3,2) stays Dead while the center (0,2) — which the claim
requires to be Dead — ends up Alive. -/
theorem pulsar_underflow_at_edge :
    (allDead5.create_pulsar_gerator 0 2).cellAt 3 2 = .Dead ∧
      (allDead5.create_pulsar_gerator 0 2).cellAt 0 2 = .Alive := by
  constructor <;> decide

/-- C8: on the 3 × 3 universe whose only Alive cell is (0,0),
`live_neighbor_count 2 2` counts (0,0) as a (south-east, wrapped on both
axes) neighbor and returns 1. -/
theorem edge_wrap_neighbor_count : only00Alive3.live_neighbor_count 2 2 = 1 := by
  decide

section FoldHelpers

variable {α β γ : Type _}

lemma length_foldl_set (L : List β) (P : β → Nat) (g : β → α) (l : List α) :
    (L.foldl (fun acc x => acc.set (P x) (g x)) l).length = l.length := by
  induction L generalizing l with
  | nil => rfl
  | cons y L ih => rw [List.foldl_cons, ih, List.length_set]

lemma getD_foldl_set_of_ne (L : List β) (P : β → Nat) (g : β → α) (l : List α)
    (p : Nat) (d : α) (h : ∀ x ∈ L, P x ≠ p) :
    (L.foldl (fun acc x => acc.set (P x) (g x)) l).getD p d = l.getD p d := by
  induction L generalizing l with
  | nil => rfl
  | cons y L ih =>
    rw [List.foldl_cons, ih _ (fun x hx => h x (List.mem_cons_of_mem y hx)),
      getD_set_ne _ _ _ (h y (List.mem_cons_self y L))]

lemma getD_foldl_set_of_mem (L : List β) (P : β → Nat) (g : β → α) (l : List α)
    (p : Nat) (d : α) (x0 : β) (hx0 : x0 ∈ L) (hP : P x0 = p)
    (huniq : ∀ x ∈ L, P x = p → g x = g x0) (hlen : p < l.length) :
    (L.foldl (fun acc x => acc.set (P x) (g x)) l).getD p d = g x0 := by
  induction L generalizing l x0 with
  | nil => cases hx0
  | cons y L ih =>
    rw [List.foldl_cons]
    by_cases hz : ∃ z ∈ L, P z = p
    · obtain ⟨z, hzL, hzP⟩ := hz
      have hgz : g z = g x0 := huniq z (List.mem_cons_of_mem y hzL) hzP
      have huniq' : ∀ x ∈ L, P x = p → g x = g z := fun x hx hxp =>
        (huniq x (List.mem_cons_of_mem y hx) hxp).trans hgz.symm
      have hlen' : p < (l.set (P y) (g y)).length := by rwa [List.length_set]
      rw [ih _ z hzL hzP huniq' hlen', hgz]
    · push_neg at hz
      rw [getD_foldl_set_of_ne L P g _ p d hz]
      have hx0y : x0 = y := by
        rcases List.mem_cons.mp hx0 with h | h
        · exact h
        · exact absurd hP (hz x0 h)
      subst hx0y
      rw [hP]
      exact getD_set_self _ _ _ _ hlen

/-- A row-by-row nested fold is the fold over the row-major list of
coordinate pairs. -/
lemma foldl_nested_eq_foldl_flatMap (R : List β) (C : List γ)
    (f : List α → β → γ → List α) (l : List α) :
    R.foldl (fun acc r => C.foldl (fun acc c => f acc r c) acc) l
      = (R.flatMap (fun r => C.map (fun c => (r, c)))).foldl
          (fun acc rc => f acc rc.1 rc.2) l := by
  induction R generalizing l with
  | nil => rfl
  | cons r R ih =>
    rw [List.foldl_cons, List.flatMap_cons, List.foldl_append, List.foldl_map, ih]

end FoldHelpers

section TickHelpers

lemma rowmajor_inj {w r1 c1 r2 c2 : Nat} (h1 : c1 < w) (h2 : c2 < w)
    (he : r1 * w + c1 = r2 * w + c2) : r1 = r2 ∧ c1 = c2 := by
  have hw : 0 < w := lt_of_le_of_lt (Nat.zero_le _) h1
  have hc : c1 = c2 := by
    have hmod : (r1 * w + c1) % w = (r2 * w + c2) % w := by rw [he]
    rwa [Nat.mul_add_mod', Nat.mul_add_mod', Nat.mod_eq_of_lt h1,
      Nat.mod_eq_of_lt h2] at hmod
  subst hc
  exact ⟨Nat.eq_of_mul_eq_mul_right hw (by omega), rfl⟩

lemma mem_flatMap_pairs {R C : List Nat} {rc : Nat × Nat} :
    rc ∈ R.flatMap (fun row => C.map (fun col => (row, col))) ↔
      rc.1 ∈ R ∧ rc.2 ∈ C := by
  obtain ⟨a, b⟩ := rc
  simp only [List.mem_flatMap, List.mem_map, Prod.mk.injEq]
  constructor
  · rintro ⟨r, hr, c, hc, rfl, rfl⟩
    exact ⟨hr, hc⟩
  · rintro ⟨hr, hc⟩
    exact ⟨a, hr, b, hc, rfl, rfl⟩

/-- `tick`'s nested row/column loop, flattened to a single fold over the
row-major list of visited coordinates. -/
lemma tick_cells_eq (u : Universe) (range : Nat) :
    (u.tick range).cells =
      ((List.range' range (u.height - range)).flatMap
          (fun row => (List.range' range (u.width - range)).map
            (fun col => (row, col)))).foldl
        (fun acc rc => acc.set (u.get_index rc.1 rc.2)
          (Universe.next_cell (u.cells.getD (u.get_index rc.1 rc.2) .Dead)
            (u.live_neighbor_count rc.1 rc.2))) u.cells := by
  exact foldl_nested_eq_foldl_flatMap
    (List.range' range (u.height - range)) (List.range' range (u.width - range))
    (fun acc row col => acc.set (u.get_index row col)
      (Universe.next_cell (u.cells.getD (u.get_index row col) .Dead)
        (u.live_neighbor_count row col))) u.cells

/-- What `tick` leaves at an in-range position: the transition of the old
cell if the position is in the updated rectangle, the old cell otherwise. -/
lemma tick_cellAt (u : Universe) (range : Nat) {r c : Nat}
    (hr : r < u.height) (hc : c < u.width)
    (hwh : u.width * u.height < U32) (hlen : u.cells.length = u.width * u.height) :
    (u.tick range).cellAt r c =
      if range ≤ r ∧ range ≤ c then
        Universe.next_cell (u.cellAt r c) (u.live_neighbor_count r c)
      else u.cellAt r c := by
  have hRmem : ∀ row, row ∈ List.range' range (u.height - range) ↔
      range ≤ row ∧ row < u.height := by
    intro row; rw [List.mem_range'_1]; omega
  have hCmem : ∀ col, col ∈ List.range' range (u.width - range) ↔
      range ≤ col ∧ col < u.width := by
    intro col; rw [List.mem_range'_1]; omega
  have hwidth : (u.tick range).width = u.width := rfl
  have hp : r * u.width + c < u.cells.length := by
    rw [hlen]; exact mul_add_lt hr hc
  unfold Universe.cellAt
  rw [hwidth, tick_cells_eq]
  by_cases hin : range ≤ r ∧ range ≤ c
  · rw [if_pos hin]
    have hx0 : (r, c) ∈ (List.range' range (u.height - range)).flatMap
        (fun row => (List.range' range (u.width - range)).map (fun col => (row, col))) :=
      mem_flatMap_pairs.mpr ⟨(hRmem r).mpr ⟨hin.1, hr⟩, (hCmem c).mpr ⟨hin.2, hc⟩⟩
    have hmain := getD_foldl_set_of_mem
      ((List.range' range (u.height - range)).flatMap
        (fun row => (List.range' range (u.width - range)).map (fun col => (row, col))))
      (fun rc => u.get_index rc.1 rc.2)
      (fun rc => Universe.next_cell (u.cells.getD (u.get_index rc.1 rc.2) .Dead)
        (u.live_neighbor_count rc.1 rc.2))
      u.cells (r * u.width + c) .Dead (r, c) hx0
      (get_index_eq u hr hc hwh)
      (by
        intro x hx hxp
        obtain ⟨hx1, hx2⟩ := mem_flatMap_pairs.mp hx
        have hx1' := (hRmem x.1).mp hx1
        have hx2' := (hCmem x.2).mp hx2
        simp only [] at hxp
        rw [get_index_eq u hx1'.2 hx2'.2 hwh] at hxp
        obtain ⟨he1, he2⟩ := rowmajor_inj hx2'.2 hc hxp
        have : x = (r, c) := Prod.ext he1 he2
        rw [this])
      hp
    rw [hmain]
    show Universe.next_cell (u.cells.getD (u.get_index r c) .Dead)
        (u.live_neighbor_count r c) =
      Universe.next_cell (u.cellAt r c) (u.live_neighbor_count r c)
    rw [get_index_eq u hr hc hwh]
    rfl
  · rw [if_neg hin]
    exact getD_foldl_set_of_ne
      ((List.range' range (u.height - range)).flatMap
        (fun row => (List.range' range (u.width - range)).map (fun col => (row, col))))
      (fun rc => u.get_index rc.1 rc.2)
      (fun rc => Universe.next_cell (u.cells.getD (u.get_index rc.1 rc.2) .Dead)
        (u.live_neighbor_count rc.1 rc.2))
      u.cells (r * u.width + c) .Dead
      (by
        intro x hx hxp
        obtain ⟨hx1, hx2⟩ := mem_flatMap_pairs.mp hx
        have hx1' := (hRmem x.1).mp hx1
        have hx2' := (hCmem x.2).mp hx2
        simp only [] at hxp
        rw [get_index_eq u hx1'.2 hx2'.2 hwh] at hxp
        obtain ⟨he1, he2⟩ := rowmajor_inj hx2'.2 hc hxp
        exact hin ⟨he1 ▸ hx1'.1, he2 ▸ hx2'.1⟩)

lemma next_cell_eq_lifeRule (c : Cell) (n : Nat) : Universe.next_cell c n = lifeRule c n := by
  cases c <;> simp only [Universe.next_cell, lifeRule] <;> split_ifs <;> simp_all <;> omega

end TickHelpers

/-- C1: a whole-grid `tick 0` sends every cell to the state the
specification's five rules prescribe, computed from the previous
generation's snapshot (the old cell and the old neighbor count). -/
theorem tick_full_applies_life_rules (u : Universe) (r c : Nat)
    (hr : r < u.height) (hc : c < u.width)
    (hwh : u.width * u.height < U32)
    (hlen : u.cells.length = u.width * u.height) :
    (u.tick 0).cellAt r c = lifeRule (u.cellAt r c) (u.live_neighbor_count r c) := by
  rw [tick_cellAt u 0 hr hc hwh hlen, if_pos ⟨Nat.zero_le r, Nat.zero_le c⟩,
    next_cell_eq_lifeRule]

theorem tick_full_applies_life_rules_witness :
    1 < only00Alive3.height ∧ 1 < only00Alive3.width ∧
      only00Alive3.width * only00Alive3.height < U32 ∧
      only00Alive3.cells.length = only00Alive3.width * only00Alive3.height ∧
      (only00Alive3.tick 0).cellAt 1 1 =
        lifeRule (only00Alive3.cellAt 1 1) (only00Alive3.live_neighbor_count 1 1) :=
  ⟨by decide, by decide, by decide, by decide,
    tick_full_applies_life_rules only00Alive3 1 1 (by decide) (by decide)
      (by decide) (by decide)⟩

/-- C9: `tick range` with `range > 0` leaves every cell with row < range
or column < range exactly as it was, and applies the transition rules
precisely to the cells with row ≥ range and column ≥ range. -/
theorem tick_partial_freezes_margin (u : Universe) (range r c : Nat)
    (_hrange : 0 < range) (hr : r < u.height) (hc : c < u.width)
    (hwh : u.width * u.height < U32)
    (hlen : u.cells.length = u.width * u.height) :
    ((r < range ∨ c < range) → (u.tick range).cellAt r c = u.cellAt r c) ∧
      (range ≤ r → range ≤ c →
        (u.tick range).cellAt r c =
          lifeRule (u.cellAt r c) (u.live_neighbor_count r c)) := by
  constructor
  · intro hfrozen
    rw [tick_cellAt u range hr hc hwh hlen, if_neg (by omega)]
  · intro h1 h2
    rw [tick_cellAt u range hr hc hwh hlen, if_pos ⟨h1, h2⟩, next_cell_eq_lifeRule]

theorem tick_partial_freezes_margin_witness :
    0 < 1 ∧ 0 < only00Alive3.height ∧ 2 < only00Alive3.width ∧
      only00Alive3.width * only00Alive3.height < U32 ∧
      only00Alive3.cells.length = only00Alive3.width * only00Alive3.height ∧
      (((0 : Nat) < 1 ∨ (2 : Nat) < 1) →
        (only00Alive3.tick 1).cellAt 0 2 = only00Alive3.cellAt 0 2) ∧
      ((1 : Nat) ≤ 0 → (1 : Nat) ≤ 2 →
        (only00Alive3.tick 1).cellAt 0 2 =
          lifeRule (only00Alive3.cellAt 0 2) (only00Alive3.live_neighbor_count 0 2)) :=
  ⟨by decide, by decide, by decide, by decide, by decide,
    (tick_partial_freezes_margin only00Alive3 1 0 2 (by decide) (by decide)
      (by decide) (by decide) (by decide)).1,
    (tick_partial_freezes_margin only00Alive3 1 0 2 (by decide) (by decide)
      (by decide) (by decide) (by decide)).2⟩

section LengthHelpers

lemma length_foldl_set_dep {α β : Type _} (L : List β) (P : β → Nat)
    (g : List α → β → α) (l : List α) :
    (L.foldl (fun acc x => acc.set (P x) (g acc x)) l).length = l.length := by
  induction L generalizing l with
  | nil => rfl
  | cons y L ih => rw [List.foldl_cons, ih, List.length_set]

lemma tick_cells_length (u : Universe) (range : Nat) :
    (u.tick range).cells.length = u.cells.length := by
  rw [tick_cells_eq]
  exact length_foldl_set _
    (fun rc : Nat × Nat => u.get_index rc.1 rc.2)
    (fun rc => Universe.next_cell (u.cells.getD (u.get_index rc.1 rc.2) .Dead)
      (u.live_neighbor_count rc.1 rc.2)) u.cells

lemma toggle_live_cell_cells_eq (u : Universe) :
    u.toggle_live_cell.cells =
      ((List.range u.height).flatMap
          (fun row => (List.range u.width).map (fun col => (row, col)))).foldl
        (fun acc rc => acc.set (u.get_index rc.1 rc.2)
          (if acc.getD (u.get_index rc.1 rc.2) .Dead = .Dead then Cell.Alive
           else Cell.Dead)) u.cells :=
  foldl_nested_eq_foldl_flatMap (List.range u.height) (List.range u.width)
    (fun acc row col => acc.set (u.get_index row col)
      (if acc.getD (u.get_index row col) Cell.Dead = Cell.Dead then Cell.Alive
       else Cell.Dead)) u.cells

lemma toggle_live_cell_cells_length (u : Universe) :
    u.toggle_live_cell.cells.length = u.cells.length := by
  rw [toggle_live_cell_cells_eq]
  exact length_foldl_set_dep _
    (fun rc : Nat × Nat => u.get_index rc.1 rc.2)
    (fun acc rc => if acc.getD (u.get_index rc.1 rc.2) Cell.Dead = Cell.Dead
      then Cell.Alive else Cell.Dead) u.cells

end LengthHelpers

/-- C6: `new` builds a 128 × 128 universe satisfying
`cells.length = width * height`, and every mutating operation (`tick`,
`restart`, `toggle_cell`, `toggle_live_cell`, `create_glider`,
`create_pulsar_gerator`) keeps `width` and `height` unchanged and
preserves that invariant. -/
theorem operations_preserve_dimensions_and_length (u : Universe)
    (rng : Nat → Bool) (range row col : Nat)
    (hwh : u.width * u.height < U32)
    (hlen : u.cells.length = u.width * u.height) :
    ((Universe.new rng).width = 128 ∧ (Universe.new rng).height = 128 ∧
      (Universe.new rng).cells.length =
        (Universe.new rng).width * (Universe.new rng).height) ∧
    ((u.tick range).width = u.width ∧ (u.tick range).height = u.height ∧
      (u.tick range).cells.length = (u.tick range).width * (u.tick range).height) ∧
    ((u.restart rng).width = u.width ∧ (u.restart rng).height = u.height ∧
      (u.restart rng).cells.length =
        (u.restart rng).width * (u.restart rng).height) ∧
    ((u.toggle_cell row col).width = u.width ∧
      (u.toggle_cell row col).height = u.height ∧
      (u.toggle_cell row col).cells.length =
        (u.toggle_cell row col).width * (u.toggle_cell row col).height) ∧
    (u.toggle_live_cell.width = u.width ∧ u.toggle_live_cell.height = u.height ∧
      u.toggle_live_cell.cells.length =
        u.toggle_live_cell.width * u.toggle_live_cell.height) ∧
    ((u.create_glider row col).width = u.width ∧
      (u.create_glider row col).height = u.height ∧
      (u.create_glider row col).cells.length =
        (u.create_glider row col).width * (u.create_glider row col).height) ∧
    ((u.create_pulsar_gerator row col).width = u.width ∧
      (u.create_pulsar_gerator row col).height = u.height ∧
      (u.create_pulsar_gerator row col).cells.length =
        (u.create_pulsar_gerator row col).width *
          (u.create_pulsar_gerator row col).height) := by
  refine ⟨⟨rfl, rfl, ?_⟩, ⟨rfl, rfl, ?_⟩, ⟨rfl, rfl, ?_⟩, ⟨rfl, rfl, ?_⟩,
    ⟨rfl, rfl, ?_⟩, ⟨rfl, rfl, ?_⟩, ⟨rfl, rfl, ?_⟩⟩
  · simp [Universe.new]
  · show (u.tick range).cells.length = u.width * u.height
    rw [tick_cells_length, hlen]
  · show (u.restart rng).cells.length = u.width * u.height
    simp only [Universe.restart, List.length_map, List.length_range]
    exact u32of_eq_of_lt hwh
  · show (u.toggle_cell row col).cells.length = u.width * u.height
    simp only [Universe.toggle_cell, List.length_set]
    exact hlen
  · show u.toggle_live_cell.cells.length = u.width * u.height
    rw [toggle_live_cell_cells_length, hlen]
  · show (u.create_glider row col).cells.length = u.width * u.height
    simp only [Universe.create_glider, List.length_set]
    exact hlen
  · show (u.create_pulsar_gerator row col).cells.length = u.width * u.height
    simp only [Universe.create_pulsar_gerator, List.length_set]
    exact hlen

theorem operations_preserve_dimensions_and_length_witness :
    only00Alive3.width * only00Alive3.height < U32 ∧
      only00Alive3.cells.length = only00Alive3.width * only00Alive3.height ∧
      (((Universe.new (fun _ => true)).width = 128 ∧
        (Universe.new (fun _ => true)).height = 128 ∧
        (Universe.new (fun _ => true)).cells.length =
          (Universe.new (fun _ => true)).width *
            (Universe.new (fun _ => true)).height) ∧
      ((only00Alive3.tick 0).width = only00Alive3.width ∧
        (only00Alive3.tick 0).height = only00Alive3.height ∧
        (only00Alive3.tick 0).cells.length =
          (only00Alive3.tick 0).width * (only00Alive3.tick 0).height) ∧
      ((only00Alive3.restart (fun _ => true)).width = only00Alive3.width ∧
        (only00Alive3.restart (fun _ => true)).height = only00Alive3.height ∧
        (only00Alive3.restart (fun _ => true)).cells.length =
          (only00Alive3.restart (fun _ => true)).width *
            (only00Alive3.restart (fun _ => true)).height) ∧
      ((only00Alive3.toggle_cell 1 2).width = only00Alive3.width ∧
        (only00Alive3.toggle_cell 1 2).height = only00Alive3.height ∧
        (only00Alive3.toggle_cell 1 2).cells.length =
          (only00Alive3.toggle_cell 1 2).width *
            (only00Alive3.toggle_cell 1 2).height) ∧
      (only00Alive3.toggle_live_cell.width = only00Alive3.width ∧
        only00Alive3.toggle_live_cell.height = only00Alive3.height ∧
        only00Alive3.toggle_live_cell.cells.length =
          only00Alive3.toggle_live_cell.width *
            only00Alive3.toggle_live_cell.height) ∧
      ((only00Alive3.create_glider 1 2).width = only00Alive3.width ∧
        (only00Alive3.create_glider 1 2).height = only00Alive3.height ∧
        (only00Alive3.create_glider 1 2).cells.length =
          (only00Alive3.create_glider 1 2).width *
            (only00Alive3.create_glider 1 2).height) ∧
      ((only00Alive3.create_pulsar_gerator 1 2).width = only00Alive3.width ∧
        (only00Alive3.create_pulsar_gerator 1 2).height = only00Alive3.height ∧
        (only00Alive3.create_pulsar_gerator 1 2).cells.length =
          (only00Alive3.create_pulsar_gerator 1 2).width *
            (only00Alive3.create_pulsar_gerator 1 2).height)) :=
  ⟨by decide, by decide,
    operations_preserve_dimensions_and_length only00Alive3 (fun _ => true) 0 1 2
      (by decide) (by decide)⟩

lemma universe_eq {u v : Universe} (hw : u.width = v.width)
    (hh : u.height = v.height) (hc : u.cells = v.cells) : u = v := by
  cases u; cases v; simp_all

/-- C7: for an in-range cell, `toggle_cell` flips exactly that cell and
leaves every other cell unchanged, and applying it twice restores the
universe exactly. -/
theorem toggle_cell_frame_and_involution (u : Universe) (row col : Nat)
    (hr : row < u.height) (hc : col < u.width)
    (hwh : u.width * u.height < U32)
    (hlen : u.cells.length = u.width * u.height) :
    (u.toggle_cell row col).cellAt row col = (u.cellAt row col).toggle ∧
      (∀ r < u.height, ∀ c < u.width, ¬(r = row ∧ c = col) →
        (u.toggle_cell row col).cellAt r c = u.cellAt r c) ∧
      (u.toggle_cell row col).toggle_cell row col = u := by
  have hidx : u.get_index row col = row * u.width + col := get_index_eq u hr hc hwh
  have hplen : row * u.width + col < u.cells.length := by
    rw [hlen]; exact mul_add_lt hr hc
  refine ⟨?_, ?_, ?_⟩
  · show (u.cells.set (u.get_index row col)
        ((u.cells.getD (u.get_index row col) .Dead).toggle)).getD
        (row * u.width + col) .Dead = (u.cellAt row col).toggle
    rw [hidx]
    exact getD_set_self _ _ _ _ hplen
  · intro r hr' c hc' hne
    show (u.cells.set (u.get_index row col)
        ((u.cells.getD (u.get_index row col) .Dead).toggle)).getD
        (r * u.width + c) .Dead = u.cellAt r c
    rw [hidx]
    exact getD_set_ne _ _ _ (fun heq => hne
      (by obtain ⟨h1, h2⟩ := rowmajor_inj hc hc' heq; exact ⟨h1.symm, h2.symm⟩))
  · have hcells : ((u.toggle_cell row col).toggle_cell row col).cells = u.cells := by
      show (u.cells.set (u.get_index row col)
          ((u.cells.getD (u.get_index row col) .Dead).toggle)).set
            (u.get_index row col)
            (((u.cells.set (u.get_index row col)
                ((u.cells.getD (u.get_index row col) .Dead).toggle)).getD
              (u.get_index row col) .Dead).toggle) = u.cells
      rw [hidx, getD_set_self _ _ _ _ hplen, Cell.toggle_toggle, List.set_set,
        set_getD_self _ _ _ hplen]
    exact universe_eq rfl rfl hcells

theorem toggle_cell_frame_and_involution_witness :
    1 < only00Alive3.height ∧ 2 < only00Alive3.width ∧
      only00Alive3.width * only00Alive3.height < U32 ∧
      only00Alive3.cells.length = only00Alive3.width * only00Alive3.height ∧
      ((only00Alive3.toggle_cell 1 2).cellAt 1 2 =
          (only00Alive3.cellAt 1 2).toggle ∧
        (∀ r < only00Alive3.height, ∀ c < only00Alive3.width,
          ¬(r = 1 ∧ c = 2) →
            (only00Alive3.toggle_cell 1 2).cellAt r c = only00Alive3.cellAt r c) ∧
        (only00Alive3.toggle_cell 1 2).toggle_cell 1 2 = only00Alive3) :=
  ⟨by decide, by decide, by decide, by decide,
    toggle_cell_frame_and_involution only00Alive3 1 2 (by decide) (by decide)
      (by decide) (by decide)⟩

lemma get_index_col_zero (u : Universe) {row x : Nat} (hrow : row < u.height)
    (hw : 0 < u.width) (hwh : u.width * u.height < U32)
    (hx : x = 0 ∨ x > u.width - 1) :
    u.get_index row x = row * u.width := by
  unfold Universe.get_index Universe.normalize_coordinate
  have hr : ¬ row > u.height - 1 := by omega
  have hcol : (if x > u.width - 1 then 0 else x) = 0 := by
    rcases hx with rfl | hgt
    · split <;> rfl
    · rw [if_pos hgt]
  simp only [hr, if_neg, if_false, hcol]
  have hlt : row * u.width + 0 < U32 := lt_trans (mul_add_lt hrow hw) hwh
  unfold u32of
  rw [Nat.mod_eq_of_lt hlt]
  omega

/-- C10: stamping a "glider" in the last column: because normalization
resets any out-of-range coordinate to 0 (not to its modulus), on a grid
of width ≥ 3 `create_glider row (width-1)` sets the cells of that row in
columns width-1 and 0 Alive (both `col+1` and `col+2` normalize to 0) and
leaves the cell in column 1 unchanged. -/
theorem glider_at_last_column_wraps_to_zero (u : Universe) (row : Nat)
    (hw3 : 3 ≤ u.width) (hrow : row < u.height)
    (hwh : u.width * u.height < U32)
    (hlen : u.cells.length = u.width * u.height) :
    (u.create_glider row (u.width - 1)).cellAt row (u.width - 1) = .Alive ∧
      (u.create_glider row (u.width - 1)).cellAt row 0 = .Alive ∧
      (u.create_glider row (u.width - 1)).cellAt row 1 = u.cellAt row 1 := by
  have hh : 0 < u.height := by omega
  have hwU : u.width < U32 := by
    calc u.width = u.width * 1 := (Nat.mul_one _).symm
      _ ≤ u.width * u.height := Nat.mul_le_mul_left _ hh
      _ < U32 := hwh
  have hidx1 : u.get_index row (u.width - 1) = row * u.width + (u.width - 1) :=
    get_index_eq u hrow (by omega) hwh
  have hadd1 : u32add (u.width - 1) 1 = u.width := by
    unfold u32add U32
    unfold U32 at hwU
    omega
  have hidx2 : u.get_index row (u32add (u.width - 1) 1) = row * u.width := by
    rw [hadd1]
    exact get_index_col_zero u hrow (by omega) hwh (Or.inr (by omega))
  have hidx3 : u.get_index row (u32add (u.width - 1) 2) = row * u.width := by
    by_cases hcase : u.width + 1 < U32
    · have hadd2 : u32add (u.width - 1) 2 = u.width + 1 := by
        unfold u32add U32
        unfold U32 at hcase
        omega
      rw [hadd2]
      exact get_index_col_zero u hrow (by omega) hwh (Or.inr (by omega))
    · have hadd2 : u32add (u.width - 1) 2 = 0 := by
        unfold u32add U32
        unfold U32 at hcase hwU
        omega
      rw [hadd2]
      exact get_index_col_zero u hrow (by omega) hwh (Or.inl rfl)
  have hp1 : row * u.width + (u.width - 1) < u.cells.length := by
    rw [hlen]; exact mul_add_lt hrow (by omega)
  have hp0 : row * u.width < u.cells.length := by
    rw [hlen]
    have := mul_add_lt hrow (show 0 < u.width by omega)
    omega
  refine ⟨?_, ?_, ?_⟩
  · show (((u.cells.set (u.get_index row (u.width - 1)) .Alive).set
        (u.get_index row (u32add (u.width - 1) 1)) .Alive).set
        (u.get_index row (u32add (u.width - 1) 2)) .Alive).getD
        (row * u.width + (u.width - 1)) .Dead = .Alive
    rw [hidx1, hidx2, hidx3,
      getD_set_ne _ _ _ (by omega : row * u.width ≠ row * u.width + (u.width - 1)),
      getD_set_ne _ _ _ (by omega : row * u.width ≠ row * u.width + (u.width - 1))]
    exact getD_set_self _ _ _ _ hp1
  · show (((u.cells.set (u.get_index row (u.width - 1)) .Alive).set
        (u.get_index row (u32add (u.width - 1) 1)) .Alive).set
        (u.get_index row (u32add (u.width - 1) 2)) .Alive).getD
        (row * u.width + 0) .Dead = .Alive
    rw [hidx1, hidx2, hidx3]
    have : row * u.width + 0 = row * u.width := by omega
    rw [this]
    refine getD_set_self _ _ _ _ ?_
    simpa [List.length_set] using hp0
  · show (((u.cells.set (u.get_index row (u.width - 1)) .Alive).set
        (u.get_index row (u32add (u.width - 1) 1)) .Alive).set
        (u.get_index row (u32add (u.width - 1) 2)) .Alive).getD
        (row * u.width + 1) .Dead = u.cellAt row 1
    rw [hidx1, hidx2, hidx3,
      getD_set_ne _ _ _ (by omega : row * u.width ≠ row * u.width + 1),
      getD_set_ne _ _ _ (by omega : row * u.width ≠ row * u.width + 1),
      getD_set_ne _ _ _
        (by omega : row * u.width + (u.width - 1) ≠ row * u.width + 1)]
    rfl

theorem glider_at_last_column_wraps_to_zero_witness :
    3 ≤ only00Alive3.width ∧ 1 < only00Alive3.height ∧
      only00Alive3.width * only00Alive3.height < U32 ∧
      only00Alive3.cells.length = only00Alive3.width * only00Alive3.height ∧
      ((only00Alive3.create_glider 1 (only00Alive3.width - 1)).cellAt 1
          (only00Alive3.width - 1) = .Alive ∧
        (only00Alive3.create_glider 1 (only00Alive3.width - 1)).cellAt 1 0 =
          .Alive ∧
        (only00Alive3.create_glider 1 (only00Alive3.width - 1)).cellAt 1 1 =
          only00Alive3.cellAt 1 1) :=
  ⟨by decide, by decide, by decide, by decide,
    glider_at_last_column_wraps_to_zero only00Alive3 1 (by decide) (by decide)
      (by decide) (by decide)⟩

section NeighborSumHelpers

lemma sum8_toNat_le (a b c d e f g k : Cell) :
    a.toNat + b.toNat + c.toNat + d.toNat + e.toNat + f.toNat + g.toNat +
      k.toNat ≤ 8 := by
  have ha := Cell.toNat_le_one a
  have hb := Cell.toNat_le_one b
  have hc := Cell.toNat_le_one c
  have hd := Cell.toNat_le_one d
  have he := Cell.toNat_le_one e
  have hf := Cell.toNat_le_one f
  have hg := Cell.toNat_le_one g
  have hk := Cell.toNat_le_one k
  omega

/-- Reindexing a sum over `range n` along the toroidal shift
`r ↦ (r + d) % n`. -/
lemma sum_range_shift_mod (n d : Nat) (hn : 0 < n) (f : Nat → Nat) :
    ∑ r ∈ Finset.range n, f ((r + d) % n) = ∑ r ∈ Finset.range n, f r := by
  have hq : n * (d / n) + d % n = d := Nat.div_add_mod d n
  have hk : d % n < n := Nat.mod_lt _ hn
  refine Finset.sum_nbij' (fun r => (r + d) % n) (fun r => (r + (n - d % n)) % n)
    ?_ ?_ ?_ ?_ ?_
  · intro a _
    exact Finset.mem_range.mpr (Nat.mod_lt _ hn)
  · intro a _
    exact Finset.mem_range.mpr (Nat.mod_lt _ hn)
  · intro a ha
    have halt : a < n := Finset.mem_range.mp ha
    show ((a + d) % n + (n - d % n)) % n = a
    have hstep : a + d + (n - d % n) = a + n * (d / n) + n := by omega
    rw [Nat.mod_add_mod, hstep, Nat.add_mod_right, Nat.add_mul_mod_self_left,
      Nat.mod_eq_of_lt halt]
  · intro a ha
    have halt : a < n := Finset.mem_range.mp ha
    show ((a + (n - d % n)) % n + d) % n = a
    have hstep : a + (n - d % n) + d = a + n * (d / n) + n := by omega
    rw [Nat.mod_add_mod, hstep, Nat.add_mod_right, Nat.add_mul_mod_self_left,
      Nat.mod_eq_of_lt halt]
  · intro a _
    rfl

/-- Summing any toroidally shifted copy of the grid counts exactly the
Alive cells. -/
lemma sum_grid_shift (u : Universe) (dr dc : Nat)
    (hw : 0 < u.width) (hh : 0 < u.height) :
    ∑ r ∈ Finset.range u.height, ∑ c ∈ Finset.range u.width,
        (u.cellAt ((r + dr) % u.height) ((c + dc) % u.width)).toNat =
      u.aliveCells :=
  calc ∑ r ∈ Finset.range u.height, ∑ c ∈ Finset.range u.width,
        (u.cellAt ((r + dr) % u.height) ((c + dc) % u.width)).toNat
      = ∑ r ∈ Finset.range u.height, ∑ c ∈ Finset.range u.width,
          (u.cellAt r ((c + dc) % u.width)).toNat :=
        sum_range_shift_mod u.height dr hh
          (fun r => ∑ c ∈ Finset.range u.width,
            (u.cellAt r ((c + dc) % u.width)).toNat)
    _ = ∑ r ∈ Finset.range u.height, ∑ c ∈ Finset.range u.width,
          (u.cellAt r c).toNat :=
        Finset.sum_congr rfl (fun r _ =>
          sum_range_shift_mod u.width dc hw (fun c => (u.cellAt r c).toNat))
    _ = u.aliveCells := rfl

/-- `live_neighbor_count` at an in-range cell, written as the eight
toroidally shifted grid reads. -/
lemma lnc_as_cellAt (u : Universe) {r c : Nat} (hr : r < u.height)
    (hc : c < u.width) (hw : 0 < u.width) (hh : 0 < u.height)
    (hwh : u.width * u.height < U32) :
    u.live_neighbor_count r c =
      (u.cellAt ((r + (u.height - 1)) % u.height)
          ((c + (u.width - 1)) % u.width)).toNat
      + (u.cellAt ((r + (u.height - 1)) % u.height) ((c + 0) % u.width)).toNat
      + (u.cellAt ((r + (u.height - 1)) % u.height) ((c + 1) % u.width)).toNat
      + (u.cellAt ((r + 0) % u.height) ((c + (u.width - 1)) % u.width)).toNat
      + (u.cellAt ((r + 0) % u.height) ((c + 1) % u.width)).toNat
      + (u.cellAt ((r + 1) % u.height) ((c + (u.width - 1)) % u.width)).toNat
      + (u.cellAt ((r + 1) % u.height) ((c + 0) % u.width)).toNat
      + (u.cellAt ((r + 1) % u.height) ((c + 1) % u.width)).toNat := by
  have hr0 : (r + 0) % u.height = r := by rw [Nat.add_zero, Nat.mod_eq_of_lt hr]
  have hc0 : (c + 0) % u.width = c := by rw [Nat.add_zero, Nat.mod_eq_of_lt hc]
  have hnorth : (if r = 0 then u.height - 1 else r - 1) =
      (r + (u.height - 1)) % u.height := by
    by_cases h0 : r = 0
    · subst h0
      rw [if_pos rfl, Nat.zero_add, Nat.mod_eq_of_lt (by omega)]
    · rw [if_neg h0]
      have hsplit : r + (u.height - 1) = (r - 1) + u.height := by omega
      rw [hsplit, Nat.add_mod_right, Nat.mod_eq_of_lt (by omega)]
  have hsouth : (if r = u.height - 1 then 0 else r + 1) =
      (r + 1) % u.height := by
    by_cases h0 : r = u.height - 1
    · rw [if_pos h0, h0]
      have hsplit : u.height - 1 + 1 = u.height := by omega
      rw [hsplit, Nat.mod_self]
    · rw [if_neg h0, Nat.mod_eq_of_lt (by omega)]
  have hwest : (if c = 0 then u.width - 1 else c - 1) =
      (c + (u.width - 1)) % u.width := by
    by_cases h0 : c = 0
    · subst h0
      rw [if_pos rfl, Nat.zero_add, Nat.mod_eq_of_lt (by omega)]
    · rw [if_neg h0]
      have hsplit : c + (u.width - 1) = (c - 1) + u.width := by omega
      rw [hsplit, Nat.add_mod_right, Nat.mod_eq_of_lt (by omega)]
  have heast : (if c = u.width - 1 then 0 else c + 1) = (c + 1) % u.width := by
    by_cases h0 : c = u.width - 1
    · rw [if_pos h0, h0]
      have hsplit : u.width - 1 + 1 = u.width := by omega
      rw [hsplit, Nat.mod_self]
    · rw [if_neg h0, Nat.mod_eq_of_lt (by omega)]
  have hN : (r + (u.height - 1)) % u.height < u.height := Nat.mod_lt _ hh
  have hS : (r + 1) % u.height < u.height := Nat.mod_lt _ hh
  have hW : (c + (u.width - 1)) % u.width < u.width := Nat.mod_lt _ hw
  have hE : (c + 1) % u.width < u.width := Nat.mod_lt _ hw
  rw [hr0, hc0]
  simp only [Universe.live_neighbor_count]
  rw [hnorth, hsouth, hwest, heast,
    get_index_eq u hN hW hwh, get_index_eq u hN hc hwh, get_index_eq u hN hE hwh,
    get_index_eq u hr hW hwh, get_index_eq u hr hE hwh,
    get_index_eq u hS hW hwh, get_index_eq u hS hc hwh, get_index_eq u hS hE hwh]
  rfl

end NeighborSumHelpers

/-- C5: every neighbor count is at most 8 (and, being a `Nat`, at least
0), and the neighbor counts summed over the whole grid equal 8 times the
number of Alive cells: each Alive cell is counted as a neighbor exactly 8
times. -/
theorem live_neighbor_count_bounds_and_sum (u : Universe)
    (hw : 0 < u.width) (hh : 0 < u.height)
    (hwh : u.width * u.height < U32) :
    (∀ r < u.height, ∀ c < u.width, u.live_neighbor_count r c ≤ 8) ∧
      ∑ r ∈ Finset.range u.height, ∑ c ∈ Finset.range u.width,
          u.live_neighbor_count r c = 8 * u.aliveCells := by
  constructor
  · intro r _ c _
    exact sum8_toNat_le _ _ _ _ _ _ _ _
  · have hstep : ∀ r ∈ Finset.range u.height,
        ∑ c ∈ Finset.range u.width, u.live_neighbor_count r c =
          ∑ c ∈ Finset.range u.width,
            ((u.cellAt ((r + (u.height - 1)) % u.height)
                ((c + (u.width - 1)) % u.width)).toNat
            + (u.cellAt ((r + (u.height - 1)) % u.height)
                ((c + 0) % u.width)).toNat
            + (u.cellAt ((r + (u.height - 1)) % u.height)
                ((c + 1) % u.width)).toNat
            + (u.cellAt ((r + 0) % u.height)
                ((c + (u.width - 1)) % u.width)).toNat
            + (u.cellAt ((r + 0) % u.height) ((c + 1) % u.width)).toNat
            + (u.cellAt ((r + 1) % u.height)
                ((c + (u.width - 1)) % u.width)).toNat
            + (u.cellAt ((r + 1) % u.height) ((c + 0) % u.width)).toNat
            + (u.cellAt ((r + 1) % u.height) ((c + 1) % u.width)).toNat) :=
      fun r hrm => Finset.sum_congr rfl (fun c hcm =>
        lnc_as_cellAt u (Finset.mem_range.mp hrm) (Finset.mem_range.mp hcm)
          hw hh hwh)
    rw [Finset.sum_congr rfl hstep]
    simp only [Finset.sum_add_distrib]
    rw [sum_grid_shift u (u.height - 1) (u.width - 1) hw hh,
      sum_grid_shift u (u.height - 1) 0 hw hh,
      sum_grid_shift u (u.height - 1) 1 hw hh,
      sum_grid_shift u 0 (u.width - 1) hw hh,
      sum_grid_shift u 0 1 hw hh,
      sum_grid_shift u 1 (u.width - 1) hw hh,
      sum_grid_shift u 1 0 hw hh,
      sum_grid_shift u 1 1 hw hh]
    ring

theorem live_neighbor_count_bounds_and_sum_witness :
    0 < only00Alive3.width ∧ 0 < only00Alive3.height ∧
      only00Alive3.width * only00Alive3.height < U32 ∧
      ((∀ r < only00Alive3.height, ∀ c < only00Alive3.width,
          only00Alive3.live_neighbor_count r c ≤ 8) ∧
        ∑ r ∈ Finset.range only00Alive3.height,
            ∑ c ∈ Finset.range only00Alive3.width,
              only00Alive3.live_neighbor_count r c =
          8 * only00Alive3.aliveCells) :=
  ⟨by decide, by decide, by decide,
    live_neighbor_count_bounds_and_sum only00Alive3 (by decide) (by decide)
      (by decide)⟩
